import Mathlib

set_option maxHeartbeats 4000000
set_option maxRecDepth 100000

/-
Verification development for the triage-tracker repository (src/main.rs and
friends): a shallow embedding of its data model, its two caches, its triage
control flow and its date-window page locator, together with theorems that
settle the specification's claims against the code.

Conventions of the embedding:
* Calendar dates (chrono::NaiveDate) and timestamps are modelled as `Int`
  counted in days; a larger value is a later date.  Only the date component
  is relevant anywhere the source uses a timestamp.
* Rust `u32` values are modelled as `Nat` together with explicit wrap-around
  arithmetic modulo 2^32 (the semantics of release builds; `as u32` casts
  truncate in every build).  Where the source can underflow (debug builds
  would panic there) the wrap-around value is produced and the theorems talk
  about it explicitly.
* `HashMap<u32, _>` is modelled as an association list with shadowing insert;
  lookups observe the most recent insert, which is observationally the map.
* Asynchronous fetches are modelled by passing the remote responses (pure
  page functions or comment lists) as arguments.
-/

namespace TriageTracker

/-- 2^32, the modulus of Rust `u32` arithmetic. -/
def u32Mod : Nat := 4294967296

/-- Wrapping `u32` decrement: the release-build value of `page_number - 1`
(main.rs lines 676 and 713).  At 0 this wraps to 2^32 - 1. -/
def wrapSub1 (n : Nat) : Nat := (n + (u32Mod - 1)) % u32Mod

/-- The `as u32` cast of an `i64` (main.rs lines 696, 705): truncation to the
low 32 bits, i.e. the representative of the value modulo 2^32. -/
def asU32 (z : Int) : Nat := (z % (u32Mod : Int)).toNat

/-- `pages_per_day.checked_add(1).unwrap_or(0)` (main.rs line 716): the
adaptive pages-per-day estimate after a failed probe. -/
def bumpPagesPerDay (p : Nat) : Nat := if p + 1 < u32Mod then p + 1 else 0

/-- `page_number.checked_sub(pages).unwrap_or_else(|| page_number - 1)`
(main.rs lines 711-714): the retreat of the cursor toward page 0, with the
wrapping fallback when the subtraction underflows. -/
def retreatPage (page pages : Nat) : Nat :=
  if pages ≤ page then page - pages else wrapSub1 page

/-- Event kinds (main.rs `enum EventId`); `Unknown` is the serde catch-all. -/
inductive EventId
  | Closed
  | Reopened
  | Unknown
deriving DecidableEq

/-- main.rs `struct Actor`. -/
structure Actor where
  login : String
deriving DecidableEq

/-- main.rs `struct Issue`.  `pull_request` is `Option<PullRequest>` where
`PullRequest` is a fieldless struct, hence `Option Unit` here; `created_at`
is the creation timestamp reduced to its date. -/
structure Issue where
  number : Nat
  title : String
  comments : Nat
  pull_request : Option Unit
  created_at : Int
deriving DecidableEq

/-- `Issue::is_pull_request` (main.rs lines 443-445). -/
def Issue.is_pull_request (i : Issue) : Bool := i.pull_request.isSome

/-- `<Issue as Dated>::date` (main.rs lines 449-451). -/
def Issue.date (i : Issue) : Int := i.created_at

/-- `<Issue as Dated>::is_relevant_for_date` (main.rs lines 453-455). -/
def Issue.is_relevant_for_date (i : Issue) (d : Int) : Bool := i.date == d

/-- main.rs `struct Event`; `when` is the event timestamp reduced to its
date. -/
structure Event where
  actor : Actor
  id : EventId
  issue : Issue
  when : Int
deriving DecidableEq

/-- `Event::is_pull_request` (main.rs lines 379-381). -/
def Event.is_pull_request (e : Event) : Bool := e.issue.is_pull_request

/-- `<Event as Dated>::date` (main.rs lines 396-398). -/
def Event.date (e : Event) : Int := e.when

/-- `<Event as Dated>::is_relevant_for_date` (main.rs lines 400-402):
a known (non-`Unknown`) kind and the matching date. -/
def Event.is_relevant_for_date (e : Event) (d : Int) : Bool :=
  (!(e.id == EventId.Unknown)) && (e.date == d)

/-- main.rs `enum IssueOrEvent`. -/
inductive IssueOrEvent
  | Issue (i : Issue)
  | Event (e : Event)
deriving DecidableEq

/-- `IssueOrEvent::issue` (main.rs lines 343-348). -/
def IssueOrEvent.issueOf : IssueOrEvent → TriageTracker.Issue
  | .Issue i => i
  | .Event e => e.issue

/-- The entity identifier of a merged item, `item.issue().number`. -/
def ioeNumber (x : IssueOrEvent) : Nat := x.issueOf.number

/-- One step of the stable insertion into a number-sorted list; together with
`sortByNumber` this models the stable
`items.sort_by(|i1, i2| i1.issue().number.cmp(&i2.issue().number))`
of main.rs line 518 (Vec::sort_by is a stable sort, and any stable sort by
the same key produces the same list). -/
def insertByNumber (x : IssueOrEvent) : List IssueOrEvent → List IssueOrEvent
  | [] => [x]
  | y :: ys =>
      if ioeNumber x ≤ ioeNumber y then x :: y :: ys else y :: insertByNumber x ys

/-- Stable sort by entity number (main.rs line 518). -/
def sortByNumber : List IssueOrEvent → List IssueOrEvent
  | [] => []
  | x :: xs => insertByNumber x (sortByNumber xs)

/-- The scan underlying `Vec::dedup_by`: `x` is the previously retained
element, and consecutive elements whose number equals `x`'s are dropped
(main.rs line 519 keeps the first element of every run). -/
def dedupFrom (x : IssueOrEvent) : List IssueOrEvent → List IssueOrEvent
  | [] => [x]
  | y :: ys =>
      if ioeNumber y = ioeNumber x then dedupFrom x ys else x :: dedupFrom y ys

/-- `items.dedup_by(|i1, i2| i1.issue().number == i2.issue().number)`
(main.rs line 519). -/
def dedupByNumber : List IssueOrEvent → List IssueOrEvent
  | [] => []
  | x :: xs => dedupFrom x xs

/-- The merge performed by `Issues::for_date` (main.rs lines 500-521) on the
two fetched lists: pull requests are filtered from both, events are appended
first, then issues; the result is stably sorted by number and deduplicated
by number. -/
def Issues.for_date (events : List Event) (issues : List Issue) : List IssueOrEvent :=
  dedupByNumber (sortByNumber
    ((events.filter (fun e => !e.is_pull_request)).map IssueOrEvent.Event ++
     (issues.filter (fun i => !i.is_pull_request)).map IssueOrEvent.Issue))

/-- The items of `filterNum n l` are those whose entity number is `n`. -/
def filterNum (n : Nat) (l : List IssueOrEvent) : List IssueOrEvent :=
  l.filter (fun a => ioeNumber a == n)

/-- main.rs `enum Activity`: the two confidence levels of a cached activity
fact. -/
inductive Activity
  | NoActivitySince (d : Int)
  | LastCommented (d : Int)
deriving DecidableEq

/-- main.rs `struct TriageCacheLine`. -/
structure TriageCacheLine where
  activity : Activity
  last_checked : Int
deriving DecidableEq

/-- main.rs `struct TriageCache`: the `HashMap<u32, TriageCacheLine>` as an
association list with shadowing insert. -/
structure TriageCache where
  internal : List (Nat × TriageCacheLine)
deriving DecidableEq

/-- main.rs `enum CacheResult`. -/
inductive CacheResult
  | Fresh (a : Activity)
  | Stale (a : Activity)
  | NotFound
deriving DecidableEq

/-- `TriageCache::get` (main.rs lines 117-131).  `now` stands for the
`chrono::Utc::now()` read inside the function; `ttl` is the optional TTL.
The entry is `Stale` exactly when `last_checked < now - ttl`. -/
def TriageCache.get (c : TriageCache) (issue_number : Nat) (ttl : Option Int)
    (now : Int) : CacheResult :=
  match List.lookup issue_number c.internal with
  | some l =>
      let ago := ttl.map (fun t => now - t)
      if (ago.map (fun a => decide (l.last_checked < a))).getD false then
        CacheResult.Stale l.activity
      else
        CacheResult.Fresh l.activity
  | none => CacheResult.NotFound

/-- `TriageCache::insert` (main.rs lines 133-140); `now` stands for the
`chrono::Utc::now()` stored as `last_checked`. -/
def TriageCache.insert (c : TriageCache) (issue_number : Nat) (activity : Activity)
    (now : Int) : TriageCache :=
  ⟨(issue_number, ⟨activity, now⟩) :: c.internal⟩

/-- main.rs `struct Comment`, reduced to its date. -/
structure Comment where
  body : String
  created_at : Int
deriving DecidableEq

/-- The observable outcome of processing one issue inside
`perform_triage_loop`: whether the issue was pushed onto `untriaged`,
which activity fact (if any) was inserted into the triage cache, whether a
remote comment fetch was issued, and whether the `todo!` (more than 100
comments) was hit. -/
structure TriageStepResult where
  untriaged : Bool
  recorded : Option Activity
  fetched : Bool
  unsupported : Bool
deriving DecidableEq

/-- The comment-fetch fallback of `perform_triage_loop` (main.rs lines
267-285), applied to the comment page the remote returned: an empty result
records `NoActivitySince(yardstick)` and marks the issue untriaged; fewer
than 100 comments record `LastCommented(last comment date)`; a full page is
the unhandled `todo!`. -/
def fetchStep (yard : Int) (comments : List Comment) : TriageStepResult :=
  match comments with
  | [] => ⟨true, some (Activity.NoActivitySince yard), true, false⟩
  | c :: cs =>
      if (c :: cs).length < 100 then
        ⟨false, some (Activity.LastCommented
          (((c :: cs).getLast (List.cons_ne_nil c cs)).created_at)), true, false⟩
      else
        ⟨false, none, true, true⟩

/-- The per-issue body of `perform_triage_loop` (main.rs lines 199-285).
`yard` is the `last_active_yard_stick`, `now` the wall clock used by the
cache lookup, and `comments` the page the remote would return if a comment
fetch is issued.  The cache is consulted with the 1-day TTL of line 215.
Note that no branch consults `issue.pull_request`. -/
def perform_triage_step (cache : TriageCache) (yard now : Int) (issue : Issue)
    (comments : List Comment) : TriageStepResult :=
  if issue.comments = 0 then
    ⟨decide (issue.created_at < yard), none, false, false⟩
  else
    match cache.get issue.number (some 1) now with
    | CacheResult.Fresh (Activity.LastCommented last) =>
        ⟨decide (last < yard), none, false, false⟩
    | CacheResult.Fresh (Activity.NoActivitySince d) =>
        if d ≤ yard then ⟨true, none, false, false⟩ else fetchStep yard comments
    | CacheResult.Stale (Activity.LastCommented d) =>
        if d > yard then ⟨false, none, false, false⟩ else fetchStep yard comments
    | _ => fetchStep yard comments

/-- Replace the pull-request flag of an issue, leaving every other field
unchanged. -/
def setPullRequest (i : Issue) (p : Option Unit) : Issue :=
  { i with pull_request := p }

/-- main.rs `error::Error`: a rate-limit signal or any other error. -/
inductive TriageError
  | RateLimited
  | Other (msg : String)
deriving DecidableEq

/-- The user-visible outcome of `handle_triaged`: whether the triage cache
was flushed, whether the rate-limit warning was printed, and the error (if
any) returned to `main`. -/
structure TriagedOutcome where
  flushed : Bool
  rateLimitWarning : Bool
  errorOut : Option TriageError
deriving DecidableEq

/-- The error-routing skeleton of `handle_triaged` (main.rs lines 151-177)
as a function of the result of `perform_triage_loop`: success and
`RateLimited` flush the cache and return success (rate limiting additionally
prints its warning before the partial result), while any other error is
returned immediately without a flush. -/
def handle_triaged (loopResult : Option TriageError) : TriagedOutcome :=
  match loopResult with
  | none => ⟨true, false, none⟩
  | some TriageError.RateLimited => ⟨true, true, none⟩
  | some (TriageError.Other m) => ⟨false, false, some (TriageError.Other m)⟩

/-- `<Event as Paged>::ESTIMATED_PAGES_PER_DAY` (main.rs line 406). -/
def Event.ESTIMATED_PAGES_PER_DAY : Nat := 4

/-- `<Issue as Paged>::ESTIMATED_PAGES_PER_DAY` (main.rs line 459). -/
def Issue.ESTIMATED_PAGES_PER_DAY : Nat := 1

/-- `<Event as Paged>::page_for_date` (main.rs lines 407-430); `today`
stands for `chrono::Utc::today()`. -/
def Event.page_for_date (today date : Int) : Nat :=
  let days_away := today - date
  if days_away > 1 then (asU32 days_away * Event.ESTIMATED_PAGES_PER_DAY) % u32Mod
  else if days_away = 1 then 4
  else 0

/-- `<Issue as Paged>::page_for_date` (main.rs lines 460-463): always
`(days_away as u32) / 6`. -/
def Issue.page_for_date (today date : Int) : Nat :=
  asU32 (today - date) / 6

/-- The mutable state of the `fetch_for_date` loop (main.rs lines 650-653),
plus `probes`, the instrumentation log of the pages fetched so far (in
order); the source logs the same information through `debug!`. -/
structure LocState (α : Type) where
  page : Nat
  items : List α
  fetchIndex : Nat
  pagesPerDay : Nat
  probes : List Nat
deriving DecidableEq

/-- One iteration of the `fetch_for_date` loop (main.rs lines 654-718),
polymorphic over the item type exactly as the source is over `T: Dated +
Paged`: `dateF` is `T::date`, `relevant` is `T::is_relevant_for_date`, and
`fetch` is the remote page source.  `Sum.inr` is the loop terminating with
the accumulated items (and the probe log); `Sum.inl` is the next state. -/
def locStep {α : Type} (dateF : α → Int) (relevant : α → Int → Bool)
    (fetch : Nat → List α) (d : Int) (s : LocState α) :
    LocState α ⊕ (List α × List Nat) :=
  match fetch s.page with
  | [] => Sum.inr (s.items, s.probes ++ [s.page])
  | x :: xs =>
      let page := x :: xs
      let probes := s.probes ++ [s.page]
      let len := page.length
      match page.findIdx? (fun e => dateF e == d) with
      | some firstIdx =>
          let lastRev := (page.reverse.findIdx? (fun e => dateF e == d)).getD 0
          let lastIdx := len - 1 - lastRev
          let items := s.items ++ page.filter (fun e => relevant e d)
          if firstIdx ≠ 0 ∧ lastIdx ≠ len - 1 then
            Sum.inr (items, probes)
          else if firstIdx = 0 ∧ s.fetchIndex = 0 then
            Sum.inl ⟨wrapSub1 s.page, items, s.fetchIndex, s.pagesPerDay, probes⟩
          else if lastIdx ≠ len - 1 then
            Sum.inr (items, probes)
          else
            Sum.inl ⟨(s.page + 1) % u32Mod, items, s.fetchIndex + 1, s.pagesPerDay, probes⟩
      | none =>
          let mostRecent := dateF x
          let leastRecent := dateF (page.getLast (List.cons_ne_nil x xs))
          let ppd := bumpPagesPerDay s.pagesPerDay
          if d < leastRecent then
            let pages := (asU32 (leastRecent - d) * s.pagesPerDay) % u32Mod
            Sum.inl ⟨(s.page + pages) % u32Mod, s.items, s.fetchIndex, ppd, probes⟩
          else
            let pages := (asU32 (d - mostRecent) * s.pagesPerDay) % u32Mod
            Sum.inl ⟨retreatPage s.page pages, s.items, s.fetchIndex, ppd, probes⟩

/-- The items carried by a `locStep` outcome. -/
def resultItems {α : Type} : LocState α ⊕ (List α × List Nat) → List α
  | Sum.inl s => s.items
  | Sum.inr r => r.1

/-- The fuelled driver of the `fetch_for_date` loop; `none` means the loop
has not terminated within `fuel` iterations (the source loop has no bound
and can fail to terminate). -/
def locRun {α : Type} (dateF : α → Int) (relevant : α → Int → Bool)
    (fetch : Nat → List α) (d : Int) :
    Nat → LocState α → Option (List α × List Nat)
  | 0, _ => none
  | fuel + 1, s =>
      match locStep dateF relevant fetch d s with
      | Sum.inr r => some r
      | Sum.inl s' => locRun dateF relevant fetch d fuel s'

/-- `fetch_for_date` (main.rs lines 641-722) with the starting page estimate
supplied as `startPage` (the claims quantify over the estimate; the source
obtains it from `T::page_for_date`) and the initial adaptive estimate `ppd0`
(the source's `T::ESTIMATED_PAGES_PER_DAY`). -/
def fetch_for_date {α : Type} (dateF : α → Int) (relevant : α → Int → Bool)
    (fetch : Nat → List α) (d : Int) (startPage ppd0 fuel : Nat) :
    Option (List α × List Nat) :=
  locRun dateF relevant fetch d fuel ⟨startPage, [], 0, ppd0, []⟩

/-- A synthetic paged source with known per-page boundaries (the spec's
locator test family, scaled down so the kernel can evaluate every run): 40
items spanning 10 days, 4 items per day, 8 per page (5 pages), descending
and day-aligned.  Item `i` (0 = newest) is dated `-(i / 4)` with today = 0. -/
def uniDate (i : Nat) : Int := -(Int.ofNat (i / 4))

/-- Relevance for the synthetic source: plain date equality. -/
def uniRelevant (i : Nat) (d : Int) : Bool := uniDate i == d

/-- Pages of the synthetic source: page `p` holds items `8 p` to `8 p + 7`;
pages past the end are empty. -/
def uniFetch (p : Nat) : List Nat :=
  if p < 5 then (List.range 8).map (fun k => 8 * p + k) else []

/-- The exact reference-computed set of synthetic items dated day `j`. -/
def uniExact (j : Nat) : List Nat :=
  (List.range 40).filter (fun i => i / 4 == j)

/-- Run the locator on the synthetic source for target day `j` from starting
page estimate `s` (with the Issue pages-per-day constant 1).  Every
terminating run of this family terminates well within fuel 40. -/
def uniRun (j s : Nat) : Option (List Nat × List Nat) :=
  fetch_for_date uniDate uniRelevant uniFetch (-(Int.ofNat j)) s 1 40

/-- Set equality of two item lists (order- and multiplicity-insensitive). -/
def uniSetEq (a b : List Nat) : Bool :=
  a.all (fun x => b.contains x) && b.all (fun x => a.contains x)

/-- For every target day of the synthetic source and every starting page
estimate that lands on a page actually containing items of that day, if the
scan terminates (within the generous fuel) then it returns exactly the
reference-computed set.  (Termination itself can fail: see `uniRun 1 0`.) -/
def uniLandingCheck : Bool :=
  (List.range 10).all (fun j =>
    (List.range 5).all (fun s =>
      if (uniFetch s).any (fun i => uniDate i == -(Int.ofNat j)) then
        match uniRun j s with
        | some r => uniSetEq r.1 (uniExact j)
        | none => true
      else true))

/-- The single-page source of the spec's today-scenario: page 0 holds three
items, every other page is empty. -/
def threeFetch (p : Nat) : List Nat := if p = 0 then [1, 2, 3] else []

/-- All three items of the today-scenario are dated today (= 0). -/
def threeDate (_ : Nat) : Int := 0

/-- Relevance for the today-scenario source: date equality. -/
def threeRelevant (i : Nat) (d : Int) : Bool := threeDate i == d

/-- A one-item source whose only page holds a single item dated two days
ago; used to probe the retreat arithmetic at page 0. -/
def oldFetch (p : Nat) : List Nat := if p = 0 then [7] else []

/-- The single item of `oldFetch` is dated two days before today. -/
def oldDate (_ : Nat) : Int := -2

/-- Relevance for the `oldFetch` source: date equality. -/
def oldRelevant (i : Nat) (d : Int) : Bool := oldDate i == d

/-- The dates visited by the `handle_range` loop (main.rs lines 313-320):
push the current date, step to its predecessor, stop after pushing `e`; the
fuel `n` is the day distance, so the list is `s, s-1, ..., s-n`. -/
def closingsDatesAux : Nat → Int → List Int
  | 0, s => [s]
  | n + 1, s => s :: closingsDatesAux n (s - 1)

/-- The full list of dates `handle_range` processes, from `start` down to
`e` inclusive (the loop of main.rs lines 313-320, which is entered only
when `e < start`). -/
def closingsDates (start e : Int) : List Int :=
  closingsDatesAux ((start - e).toNat) start

/-- `handle_range` (main.rs lines 308-332) reduced to its observable
control flow: the guard `if end >= start` returns the error, otherwise the
snapshot loop walks the dates from `start` down to `e` inclusive (the
per-day printing consumes exactly this list). -/
def handle_range (start e : Int) : Except String (List Int) :=
  if e ≥ start then Except.error "--start must be more recent than --end"
  else Except.ok (closingsDates start e)

/-- A concrete non-pull-request closed event on entity 5 (witness input). -/
def wEv : Event := ⟨⟨"a"⟩, EventId.Closed, ⟨5, "t", 0, none, 0⟩, 0⟩

/-- A concrete non-pull-request issue numbered 5 (witness input). -/
def wIs5 : Issue := ⟨5, "u", 0, none, 0⟩

/-- A concrete non-pull-request issue numbered 2 (witness input). -/
def wIs2 : Issue := ⟨2, "v", 0, none, 0⟩

/-- A one-entry triage cache: entity 1 was last checked at instant 0 with a
`LastCommented 0` fact. -/
def cexCache : TriageCache := ⟨[(1, ⟨Activity.LastCommented 0, 0⟩)]⟩

/-- A pull request with zero comments created 400 days before the yardstick. -/
def prZeroComment : Issue := ⟨10, "t", 0, some (), -400⟩

/-- A pull request with three comments created 400 days before the
yardstick. -/
def prWithComments : Issue := ⟨11, "t", 3, some (), -400⟩

/-- Membership in an insertion step: exactly the inserted element plus the
old ones. -/
theorem mem_insertByNumber {x a : IssueOrEvent} :
    ∀ {l : List IssueOrEvent}, a ∈ insertByNumber x l ↔ a = x ∨ a ∈ l := by
  intro l
  induction l with
  | nil => simp [insertByNumber]
  | cons y ys ih =>
    simp only [insertByNumber]
    split
    · simp [List.mem_cons]
    · simp only [List.mem_cons, ih]
      tauto

/-- Inserting into a list sorted by number keeps it sorted by number. -/
theorem pairwise_le_insertByNumber {x : IssueOrEvent} {l : List IssueOrEvent}
    (h : l.Pairwise (fun a b => ioeNumber a ≤ ioeNumber b)) :
    (insertByNumber x l).Pairwise (fun a b => ioeNumber a ≤ ioeNumber b) := by
  induction l with
  | nil => simp [insertByNumber]
  | cons y ys ih =>
    rw [List.pairwise_cons] at h
    simp only [insertByNumber]
    split
    · rename_i hxy
      rw [List.pairwise_cons]
      refine ⟨?_, ?_⟩
      · intro b hb
        rcases List.mem_cons.mp hb with rfl | hb
        · exact hxy
        · exact le_trans hxy (h.1 b hb)
      · rw [List.pairwise_cons]
        exact h
    · rename_i hxy
      rw [List.pairwise_cons]
      refine ⟨?_, ih h.2⟩
      intro b hb
      rcases mem_insertByNumber.mp hb with rfl | hb
      · exact le_of_not_le hxy
      · exact h.1 b hb

/-- The stable sort by number produces a list sorted by number. -/
theorem sorted_sortByNumber (l : List IssueOrEvent) :
    (sortByNumber l).Pairwise (fun a b => ioeNumber a ≤ ioeNumber b) := by
  induction l with
  | nil => simp [sortByNumber]
  | cons x xs ih => exact pairwise_le_insertByNumber ih

/-- Sorting does not change membership. -/
theorem mem_sortByNumber {a : IssueOrEvent} :
    ∀ {l : List IssueOrEvent}, a ∈ sortByNumber l ↔ a ∈ l := by
  intro l
  induction l with
  | nil => simp [sortByNumber]
  | cons x xs ih => simp [sortByNumber, mem_insertByNumber, ih]

/-- `filterNum` on a cons. -/
theorem filterNum_cons (n : Nat) (x : IssueOrEvent) (l : List IssueOrEvent) :
    filterNum n (x :: l) =
      if ioeNumber x = n then x :: filterNum n l else filterNum n l := by
  by_cases h : ioeNumber x = n
  · simp [filterNum, List.filter_cons, h]
  · simp [filterNum, List.filter_cons, h]

/-- Stability of the insertion step: the elements with a given number, in
order, are the inserted one (if its number matches) followed by the old
ones. -/
theorem filterNum_insertByNumber (n : Nat) (x : IssueOrEvent) :
    ∀ (l : List IssueOrEvent),
      filterNum n (insertByNumber x l) =
        if ioeNumber x = n then x :: filterNum n l else filterNum n l := by
  intro l
  induction l with
  | nil => rw [show insertByNumber x [] = [x] from rfl, filterNum_cons]
  | cons y ys ih =>
    simp only [insertByNumber]
    split
    · rename_i hxy
      exact filterNum_cons n x (y :: ys)
    · rename_i hxy
      have hyx : ioeNumber y < ioeNumber x := Nat.lt_of_not_le fun h => hxy h
      by_cases hx : ioeNumber x = n
      · have hy : ioeNumber y ≠ n := by omega
        simp [filterNum_cons, hy, hx, ih]
      · simp [filterNum_cons, ih, hx]

/-- Stability of the stable sort: sorting preserves the subsequence of
elements with any fixed number. -/
theorem filterNum_sortByNumber (n : Nat) :
    ∀ (l : List IssueOrEvent), filterNum n (sortByNumber l) = filterNum n l := by
  intro l
  induction l with
  | nil => rfl
  | cons x xs ih => simp [sortByNumber, filterNum_insertByNumber, ih, filterNum_cons]

/-- Elements surviving the dedup scan come from the retained element or the
tail. -/
theorem mem_dedupFrom :
    ∀ (ys : List IssueOrEvent) (x a : IssueOrEvent),
      a ∈ dedupFrom x ys → a = x ∨ a ∈ ys := by
  intro ys
  induction ys with
  | nil =>
    intro x a ha
    simp [dedupFrom] at ha
    exact Or.inl ha
  | cons y ys ih =>
    intro x a ha
    simp only [dedupFrom] at ha
    split at ha
    · rcases ih x a ha with h | h
      · exact Or.inl h
      · exact Or.inr (List.mem_cons_of_mem y h)
    · rcases List.mem_cons.mp ha with h | h
      · exact Or.inl h
      · rcases ih y a h with h2 | h2
        · exact Or.inr (h2 ▸ List.mem_cons_self y ys)
        · exact Or.inr (List.mem_cons_of_mem y h2)

/-- Dedup of a number-sorted run is strictly increasing in number. -/
theorem pairwise_lt_dedupFrom :
    ∀ (ys : List IssueOrEvent) (x : IssueOrEvent),
      (x :: ys).Pairwise (fun a b => ioeNumber a ≤ ioeNumber b) →
      (dedupFrom x ys).Pairwise (fun a b => ioeNumber a < ioeNumber b) := by
  intro ys
  induction ys with
  | nil =>
    intro x _
    simp [dedupFrom]
  | cons y ys ih =>
    intro x h
    rw [List.pairwise_cons] at h
    simp only [dedupFrom]
    split
    · rename_i hk
      apply ih x
      rw [List.pairwise_cons]
      exact ⟨fun b hb => h.1 b (List.mem_cons_of_mem y hb),
        (List.pairwise_cons.mp h.2).2⟩
    · rename_i hk
      rw [List.pairwise_cons]
      refine ⟨?_, ih y h.2⟩
      intro b hb
      have hxy : ioeNumber x < ioeNumber y :=
        lt_of_le_of_ne (h.1 y (List.mem_cons_self y ys)) (fun e => hk e.symm)
      rcases mem_dedupFrom ys y b hb with rfl | hbys
      · exact hxy
      · exact lt_of_lt_of_le hxy ((List.pairwise_cons.mp h.2).1 b hbys)

/-- On a number-sorted run, dedup keeps exactly the first element of each
equal-number block. -/
theorem filterNum_dedupFrom (n : Nat) :
    ∀ (ys : List IssueOrEvent) (x : IssueOrEvent),
      (x :: ys).Pairwise (fun a b => ioeNumber a ≤ ioeNumber b) →
      filterNum n (dedupFrom x ys) = (filterNum n (x :: ys)).take 1 := by
  intro ys
  induction ys with
  | nil =>
    intro x _
    by_cases hx : ioeNumber x = n
    · simp [dedupFrom, filterNum_cons, hx, filterNum]
    · simp [dedupFrom, filterNum_cons, hx, filterNum]
  | cons y ys ih =>
    intro x h
    have h1 : ∀ b ∈ y :: ys, ioeNumber x ≤ ioeNumber b := (List.pairwise_cons.mp h).1
    have h2 : (y :: ys).Pairwise (fun a b => ioeNumber a ≤ ioeNumber b) :=
      (List.pairwise_cons.mp h).2
    simp only [dedupFrom]
    split
    · rename_i hk
      have hxys : (x :: ys).Pairwise (fun a b => ioeNumber a ≤ ioeNumber b) := by
        rw [List.pairwise_cons]
        exact ⟨fun b hb => h1 b (List.mem_cons_of_mem y hb),
          (List.pairwise_cons.mp h2).2⟩
      rw [ih x hxys]
      by_cases hx : ioeNumber x = n
      · have hy : ioeNumber y = n := by rw [hk, hx]
        simp [filterNum_cons, hx, hy]
      · have hy : ioeNumber y ≠ n := by rw [hk]; exact hx
        simp [filterNum_cons, hx, hy]
    · rename_i hk
      have hxy : ioeNumber x < ioeNumber y :=
        lt_of_le_of_ne (h1 y (List.mem_cons_self y ys)) (fun e => hk e.symm)
      by_cases hx : ioeNumber x = n
      · have hnil : filterNum n (dedupFrom y ys) = [] := by
          rw [filterNum, List.filter_eq_nil_iff]
          intro b hb
          rcases mem_dedupFrom ys y b hb with rfl | hbys
          · simp [beq_iff_eq]
            omega
          · have hyb : ioeNumber y ≤ ioeNumber b := (List.pairwise_cons.mp h2).1 b hbys
            simp [beq_iff_eq]
            omega
        simp [filterNum_cons, hx, hnil]
      · simp [filterNum_cons, hx, ih y h2]

/-- Dedup of a number-sorted list is strictly increasing in number. -/
theorem pairwise_lt_dedupByNumber {l : List IssueOrEvent}
    (h : l.Pairwise (fun a b => ioeNumber a ≤ ioeNumber b)) :
    (dedupByNumber l).Pairwise (fun a b => ioeNumber a < ioeNumber b) := by
  cases l with
  | nil => simp [dedupByNumber]
  | cons x xs => exact pairwise_lt_dedupFrom xs x h

/-- Dedup does not invent elements. -/
theorem mem_dedupByNumber {a : IssueOrEvent} {l : List IssueOrEvent}
    (ha : a ∈ dedupByNumber l) : a ∈ l := by
  cases l with
  | nil => simp [dedupByNumber] at ha
  | cons x xs =>
    rcases mem_dedupFrom xs x a ha with h | h
    · rw [h]
      exact List.mem_cons_self x xs
    · exact List.mem_cons_of_mem x h

/-- Every item carried out of one locator step is either an item already
accumulated or satisfies the relevance predicate for the target date (items
are only ever added through `filter (is_relevant_for_date date)`). -/
theorem locStep_mem {α : Type} (dateF : α → Int) (relevant : α → Int → Bool)
    (fetch : Nat → List α) (d : Int) (s : LocState α) :
    ∀ z ∈ resultItems (locStep dateF relevant fetch d s),
      z ∈ s.items ∨ relevant z d = true := by
  intro z hz
  simp only [locStep] at hz
  cases hfp : fetch s.page with
  | nil =>
    simp only [hfp] at hz
    simp only [resultItems] at hz
    exact Or.inl hz
  | cons x xs =>
    simp only [hfp] at hz
    cases hfi : (x :: xs).findIdx? (fun e => dateF e == d) with
    | some firstIdx =>
      simp only [hfi] at hz
      split at hz
      · simp only [resultItems] at hz
        rcases List.mem_append.mp hz with h | h
        · exact Or.inl h
        · exact Or.inr (List.mem_filter.mp h).2
      · split at hz
        · simp only [resultItems] at hz
          rcases List.mem_append.mp hz with h | h
          · exact Or.inl h
          · exact Or.inr (List.mem_filter.mp h).2
        · split at hz
          · simp only [resultItems] at hz
            rcases List.mem_append.mp hz with h | h
            · exact Or.inl h
            · exact Or.inr (List.mem_filter.mp h).2
          · simp only [resultItems] at hz
            rcases List.mem_append.mp hz with h | h
            · exact Or.inl h
            · exact Or.inr (List.mem_filter.mp h).2
    | none =>
      simp only [hfi] at hz
      split at hz
      · simp only [resultItems] at hz
        exact Or.inl hz
      · simp only [resultItems] at hz
        exact Or.inl hz

/-- Soundness of the fuelled locator loop: if it terminates, every returned
item either was in the initial accumulator or is relevant for the target
date. -/
theorem locRun_relevant {α : Type} (dateF : α → Int) (relevant : α → Int → Bool)
    (fetch : Nat → List α) (d : Int) :
    ∀ (fuel : Nat) (s : LocState α) (r : List α × List Nat),
      locRun dateF relevant fetch d fuel s = some r →
      (∀ y ∈ s.items, relevant y d = true) →
      ∀ x ∈ r.1, relevant x d = true := by
  intro fuel
  induction fuel with
  | zero =>
    intro s r h
    simp [locRun] at h
  | succ m ih =>
    intro s r h hinv
    simp only [locRun] at h
    cases hstep : locStep dateF relevant fetch d s with
    | inr r2 =>
      rw [hstep] at h
      simp only [Option.some.injEq] at h
      subst h
      intro x hx
      have hm := locStep_mem dateF relevant fetch d s x
        (by rw [hstep]; simpa [resultItems] using hx)
      rcases hm with hold | hrel
      · exact hinv x hold
      · exact hrel
    | inl s2 =>
      rw [hstep] at h
      refine ih s2 r h ?_
      intro y hy
      have hm := locStep_mem dateF relevant fetch d s y
        (by rw [hstep]; simpa [resultItems] using hy)
      rcases hm with hold | hrel
      · exact hinv y hold
      · exact hrel

/-- The `handle_range` date walk in closed form: starting at `s` with fuel
`n`, the visited dates are `s, s-1, ..., s-n`. -/
theorem closingsDatesAux_eq :
    ∀ (n : Nat) (s : Int),
      closingsDatesAux n s = (List.range (n + 1)).map (fun k : Nat => s - (k : Int)) := by
  intro n
  induction n with
  | zero =>
    intro s
    simp [closingsDatesAux, List.range_succ]
  | succ m ih =>
    intro s
    rw [show closingsDatesAux (m + 1) s = s :: closingsDatesAux m (s - 1) from rfl,
      ih (s - 1)]
    conv_rhs => rw [List.range_succ_eq_map]
    rw [List.map_cons, List.map_map]
    have hf : ((fun k : Nat => s - (k : Int)) ∘ Nat.succ) =
        fun k : Nat => s - 1 - (k : Int) := by
      funext k
      simp [Function.comp, Nat.succ_eq_add_one]
      ring
    rw [hf]
    simp

/-- C1 counterexample: on a synthetic day-aligned source with known page
boundaries (40 items over 10 days, 8 per page), targeting the oldest day
(day 9) with start estimate page 0, the first probe misses, the computed
jump (8 days * 1 page/day) lands on page 8 which is past the end of the
source, the empty page terminates the scan, and the locator returns the
empty set — not the 4-item reference set `uniExact 9`.  The returned set
thus depends on the starting page estimate. -/
theorem c1_counterexample :
    uniRun 9 0 = some ([], [0, 8]) ∧ uniExact 9 ≠ [] := by
  exact ⟨by decide, by decide⟩

/-- C1 (amended): (1) soundness holds universally: whatever paged source,
target date and starting estimate are supplied, every item the locator
returns satisfies `is_relevant_for_date` for the target date; (2) on the
synthetic day-aligned source, for every target day and every starting
estimate landing on a page that contains items of that day, a terminating
scan returns exactly the reference-computed set; (3) but termination can
fail even then: targeting day 1 from page 0 oscillates between pages 0 and
1 forever (no result within generous fuel). -/
theorem c1_theorem :
    (∀ (α : Type) (dateF : α → Int) (relevant : α → Int → Bool)
        (fetch : Nat → List α) (d : Int) (startPage ppd0 fuel : Nat)
        (r : List α × List Nat),
        fetch_for_date dateF relevant fetch d startPage ppd0 fuel = some r →
        ∀ x ∈ r.1, relevant x d = true) ∧
    uniLandingCheck = true ∧ uniRun 1 0 = none := by
  refine ⟨?_, by decide, by decide⟩
  intro α dateF relevant fetch d sp p0 fuel r h
  refine locRun_relevant dateF relevant fetch d fuel ⟨sp, [], 0, p0, []⟩ r h ?_
  intro y hy
  simp at hy

/-- C1 witness: soundness applied to the synthetic source at day 0 (today)
from page 0, whose run returns exactly the day-0 reference items (the
second probe is the wrapped-around page, which is empty). -/
theorem c1_witness :
    ∀ x ∈ uniExact 0, uniRelevant x 0 = true := by
  intro x hx
  exact c1_theorem.1 Nat uniDate uniRelevant uniFetch 0 0 1 40
    (uniExact 0, [0, 4294967295]) (by decide) x hx

/-- C2: every Day Snapshot produced by `Issues::for_date` is strictly sorted
by entity number (hence duplicate-free), contains no pull-request item, and
whenever a non-pull-request Activity Event for an identifier was fetched,
the item retained under that identifier is an Event (Activity Events take
precedence over raw Issues). -/
theorem c2_theorem (events : List Event) (issues : List Issue) :
    ((Issues.for_date events issues).Pairwise
      (fun a b => ioeNumber a < ioeNumber b)) ∧
    (∀ x ∈ Issues.for_date events issues, x.issueOf.is_pull_request = false) ∧
    (∀ n : Nat, (∃ e ∈ events, e.is_pull_request = false ∧ e.issue.number = n) →
      ∀ x ∈ Issues.for_date events issues, ioeNumber x = n →
        ∃ e : Event, x = IssueOrEvent.Event e) := by
  refine ⟨?_, ?_, ?_⟩
  · exact pairwise_lt_dedupByNumber (sorted_sortByNumber _)
  · intro x hx
    have hx2 : x ∈ (events.filter (fun e => !e.is_pull_request)).map IssueOrEvent.Event ++
        (issues.filter (fun i => !i.is_pull_request)).map IssueOrEvent.Issue :=
      mem_sortByNumber.mp (mem_dedupByNumber hx)
    rcases List.mem_append.mp hx2 with h | h
    · rcases List.mem_map.mp h with ⟨e, he, rfl⟩
      have := (List.mem_filter.mp he).2
      simp only [Bool.not_eq_true'] at this
      simpa [IssueOrEvent.issueOf, Event.is_pull_request] using this
    · rcases List.mem_map.mp h with ⟨i, hi, rfl⟩
      have := (List.mem_filter.mp hi).2
      simp only [Bool.not_eq_true'] at this
      simpa [IssueOrEvent.issueOf] using this
  · intro n hn x hx hkey
    rcases hn with ⟨e, he, hepr, henum⟩
    have hxf : x ∈ filterNum n (Issues.for_date events issues) :=
      List.mem_filter.mpr ⟨hx, by simp [hkey]⟩
    rw [Issues.for_date] at hxf
    cases hl : sortByNumber
        ((events.filter (fun e => !e.is_pull_request)).map IssueOrEvent.Event ++
         (issues.filter (fun i => !i.is_pull_request)).map IssueOrEvent.Issue) with
    | nil =>
      rw [hl] at hxf
      simp [dedupByNumber, filterNum] at hxf
    | cons h t =>
      have hsorted := sorted_sortByNumber
        ((events.filter (fun e => !e.is_pull_request)).map IssueOrEvent.Event ++
         (issues.filter (fun i => !i.is_pull_request)).map IssueOrEvent.Issue)
      rw [hl] at hsorted
      rw [hl] at hxf
      have heq := filterNum_dedupFrom n t h hsorted
      rw [show dedupByNumber (h :: t) = dedupFrom h t from rfl, heq, ← hl,
        filterNum_sortByNumber, filterNum, List.filter_append] at hxf
      have hEe : IssueOrEvent.Event e ∈
          (events.filter (fun e => !e.is_pull_request)).map IssueOrEvent.Event :=
        List.mem_map_of_mem _ (List.mem_filter.mpr ⟨he, by simp [hepr]⟩)
      have hkeyE : (ioeNumber (IssueOrEvent.Event e) == n) = true := by
        simp [ioeNumber, IssueOrEvent.issueOf, henum]
      cases hA : ((events.filter (fun e => !e.is_pull_request)).map
          IssueOrEvent.Event).filter (fun a => ioeNumber a == n) with
      | nil =>
        exfalso
        have : IssueOrEvent.Event e ∈
            ((events.filter (fun e => !e.is_pull_request)).map
              IssueOrEvent.Event).filter (fun a => ioeNumber a == n) :=
          List.mem_filter.mpr ⟨hEe, hkeyE⟩
        rw [hA] at this
        simp at this
      | cons a as =>
        rw [hA] at hxf
        simp only [List.cons_append, List.take_succ_cons, List.take_zero,
          List.mem_singleton] at hxf
        have haA : a ∈ ((events.filter (fun e => !e.is_pull_request)).map
            IssueOrEvent.Event).filter (fun z => ioeNumber z == n) := by
          rw [hA]
          exact List.mem_cons_self a as
        have hmap : a ∈ (events.filter (fun e => !e.is_pull_request)).map
            IssueOrEvent.Event :=
          List.mem_of_mem_filter haA
        rcases List.mem_map.mp hmap with ⟨e2, _, hEq⟩
        refine ⟨e2, ?_⟩
        rw [hxf, ← hEq]

/-- C2 witness: with one non-pull-request Closed event on entity 5 and raw
issues 5 and 2, the retained item numbered 5 is the Event. -/
theorem c2_witness :
    ∀ x ∈ Issues.for_date [wEv] [wIs5, wIs2], ioeNumber x = 5 →
      ∃ e : Event, x = IssueOrEvent.Event e :=
  (c2_theorem [wEv] [wIs5, wIs2]).2.2 5
    ⟨wEv, List.mem_singleton.mpr rfl, rfl, rfl⟩

/-- C3 counterexample: with a fact last checked at instant 0, a TTL of 5 and
`now = 5`, we have `now - last_checked >= ttl`, yet `TriageCache::get`
returns `Fresh` (the code's staleness test is strict). -/
theorem c3_counterexample :
    TriageCache.get cexCache 1 (some 5) 5 = CacheResult.Fresh (Activity.LastCommented 0) ∧
    (5 : Int) - 0 ≥ 5 := by
  exact ⟨rfl, by decide⟩

/-- C3 (amended): `TriageCache::get` returns `Stale(fact)` iff
`now - last_checked > ttl` (strictly), `Fresh(fact)` iff
`now - last_checked <= ttl`, always `Fresh` when the TTL is absent, and
`NotFound` iff the identifier has no entry; `insert` creates the entry. -/
theorem c3_theorem :
    ∀ (c : TriageCache) (n : Nat) (now t : Int) (l : TriageCacheLine) (a : Activity)
      (now2 : Int),
      (List.lookup n c.internal = some l →
        (TriageCache.get c n (some t) now = CacheResult.Stale l.activity ↔
          now - l.last_checked > t) ∧
        (TriageCache.get c n (some t) now = CacheResult.Fresh l.activity ↔
          now - l.last_checked ≤ t) ∧
        TriageCache.get c n none now = CacheResult.Fresh l.activity) ∧
      (TriageCache.get c n (some t) now = CacheResult.NotFound ↔
        List.lookup n c.internal = none) ∧
      (TriageCache.get c n none now = CacheResult.NotFound ↔
        List.lookup n c.internal = none) ∧
      List.lookup n (TriageCache.insert c n a now2).internal = some ⟨a, now2⟩ := by
  intro c n now t l a now2
  refine ⟨?_, ?_, ?_, ?_⟩
  · intro hl
    refine ⟨?_, ?_, ?_⟩
    · by_cases h : l.last_checked < now - t
      · simp [TriageCache.get, hl, h]
        omega
      · simp [TriageCache.get, hl, h]
        omega
    · by_cases h : l.last_checked < now - t
      · simp [TriageCache.get, hl, h]
        omega
      · simp [TriageCache.get, hl, h]
        omega
    · simp [TriageCache.get, hl]
  · cases hl : List.lookup n c.internal with
    | none => simp [TriageCache.get, hl]
    | some l2 =>
      by_cases h : l2.last_checked < now - t
      · simp [TriageCache.get, hl, h]
      · simp [TriageCache.get, hl, h]
  · cases hl : List.lookup n c.internal with
    | none => simp [TriageCache.get, hl]
    | some l2 => simp [TriageCache.get, hl]
  · simp [TriageCache.insert, List.lookup]

/-- C3 witness: applying the characterization to the concrete one-entry
cache at `now = 7`, TTL 5 (so `now - last_checked = 7 > 5`) yields `Stale`. -/
theorem c3_witness :
    TriageCache.get cexCache 1 (some 5) 7 = CacheResult.Stale (Activity.LastCommented 0) :=
  ((c3_theorem cexCache 1 7 5 ⟨Activity.LastCommented 0, 0⟩ (Activity.LastCommented 0) 0).1
    rfl).1.mpr (by decide)

/-- C4 counterexample: when `perform_triage_loop` fails with an error other
than `RateLimited`, `handle_triaged` surfaces the error without flushing the
cache (`return Err(e)` on main.rs line 163 precedes any flush). -/
theorem c4_counterexample :
    (handle_triaged (some (TriageError.Other "io"))).errorOut =
      some (TriageError.Other "io") ∧
    (handle_triaged (some (TriageError.Other "io"))).flushed = false := by
  exact ⟨rfl, rfl⟩

/-- C4 (amended): the cache is flushed exactly when the loop succeeds or
fails with `RateLimited` (the latter printing the rate-limit warning and
reporting the partial result as success); any other error is returned
immediately, unflushed. -/
theorem c4_theorem :
    handle_triaged none = ⟨true, false, none⟩ ∧
    handle_triaged (some TriageError.RateLimited) = ⟨true, true, none⟩ ∧
    (∀ m : String, handle_triaged (some (TriageError.Other m)) =
      ⟨false, false, some (TriageError.Other m)⟩) := by
  exact ⟨rfl, rfl, fun _ => rfl⟩

/-- C5 counterexample: with today's three items on the single page 0, the
locator does not stop after the first fetch: the matched run touches index 0
on the first fetch, so `page_number -= 1` executes at page 0, wraps to
2^32 - 1 (debug builds panic), and a second probe of that page is issued
before the empty result terminates the scan — two probes, not one. -/
theorem c5_counterexample :
    fetch_for_date threeDate threeRelevant threeFetch 0 0 4 10 =
      some ([1, 2, 3], [0, 4294967295]) ∧
    ([0, 4294967295] : List Nat).length ≠ 1 := by
  exact ⟨by decide, by decide⟩

/-- C5 (amended): the locator does return all 3 items and terminates
successfully, but only after a second probe of the wrapped-around page
`2^32 - 1` (which is empty) — one retry beyond the claimed single fetch. -/
theorem c5_theorem :
    fetch_for_date threeDate threeRelevant threeFetch 0 0 4 10 =
      some ([1, 2, 3], [0, wrapSub1 0]) ∧ wrapSub1 0 = u32Mod - 1 := by
  exact ⟨by decide, by decide⟩

/-- C6 counterexample: on a page whose items are all older than the target
(item date -2, target 0) with the cursor already at page 0, the retreat
fallback `page_number - 1` itself underflows and the cursor wraps to
2^32 - 1 instead of moving one page back. -/
theorem c6_counterexample :
    locStep oldDate oldRelevant oldFetch 0 ⟨0, [], 0, 1, []⟩ =
      Sum.inl ⟨4294967295, [], 0, 2, [0]⟩ ∧
    ¬ (4294967295 ≤ (0 : Nat)) := by
  exact ⟨rfl, by decide⟩

/-- C6 (amended): when the computed retreat does not underflow the cursor
moves back by `pages`; when it underflows and the cursor is positive, the
cursor is clamped to one page back; but when the cursor is already page 0,
the fallback `page_number - 1` underflows itself and wraps to 2^32 - 1
(debug builds panic there). -/
theorem c6_theorem :
    ∀ page pages : Nat,
      (pages ≤ page → retreatPage page pages = page - pages) ∧
      (1 ≤ page → page < u32Mod → page < pages → retreatPage page pages = page - 1) ∧
      (page = 0 → 1 ≤ pages → retreatPage page pages = u32Mod - 1) := by
  intro page pages
  refine ⟨?_, ?_, ?_⟩
  · intro h
    simp [retreatPage, h]
  · intro h1 h2 h3
    have hn : ¬ (pages ≤ page) := by omega
    simp only [u32Mod] at h2
    simp only [retreatPage, if_neg hn, wrapSub1, u32Mod]
    omega
  · intro h0 h1
    subst h0
    have hn : ¬ (pages ≤ 0) := by omega
    simp only [retreatPage, if_neg hn, wrapSub1, u32Mod]

/-- C6 witness: the three clauses at concrete inputs (7,3), (3,7) and (0,5). -/
theorem c6_witness :
    retreatPage 7 3 = 4 ∧ retreatPage 3 7 = 2 ∧ retreatPage 0 5 = u32Mod - 1 := by
  exact ⟨(c6_theorem 7 3).1 (by decide),
    (c6_theorem 3 7).2.1 (by decide) (by decide) (by decide),
    (c6_theorem 0 5).2.2 rfl (by decide)⟩

/-- C7 counterexample: at the maximum `u32` value the bump
`checked_add(1).unwrap_or(0)` wraps the pages-per-day estimate to 0 instead
of saturating at the maximum. -/
theorem c7_counterexample :
    bumpPagesPerDay (u32Mod - 1) = 0 ∧ u32Mod - 1 ≠ 0 := by
  exact ⟨by decide, by decide⟩

/-- C7 (amended): every probe that finds no item for the target date bumps
the adaptive estimate with `bumpPagesPerDay`, which adds exactly 1 below the
`u32` maximum and wraps to 0 (rather than saturating) at the maximum. -/
theorem c7_theorem :
    (∀ p : Nat, p + 1 < u32Mod → bumpPagesPerDay p = p + 1) ∧
    bumpPagesPerDay (u32Mod - 1) = 0 ∧
    (∀ (α : Type) (dateF : α → Int) (relevant : α → Int → Bool)
       (fetch : Nat → List α) (d : Int) (s : LocState α) (a : α) (as : List α),
       fetch s.page = a :: as →
       (a :: as).findIdx? (fun e => dateF e == d) = none →
       ∃ s', locStep dateF relevant fetch d s = Sum.inl s' ∧
         s'.pagesPerDay = bumpPagesPerDay s.pagesPerDay ∧ s'.items = s.items) := by
  refine ⟨?_, by decide, ?_⟩
  · intro p h
    simp [bumpPagesPerDay, h]
  · intro α dateF relevant fetch d s a as hf hn
    simp only [locStep, hf, hn]
    split
    · exact ⟨_, rfl, rfl, rfl⟩
    · exact ⟨_, rfl, rfl, rfl⟩

/-- C7 witness: the bump at 3 and one concrete no-match probe step. -/
theorem c7_witness :
    bumpPagesPerDay 3 = 4 ∧
    (∃ s', locStep oldDate oldRelevant oldFetch 0 ⟨0, [], 0, 1, []⟩ = Sum.inl s' ∧
      s'.pagesPerDay = bumpPagesPerDay 1 ∧ s'.items = []) := by
  exact ⟨c7_theorem.1 3 (by decide),
    c7_theorem.2.2 Nat oldDate oldRelevant oldFetch 0 ⟨0, [], 0, 1, []⟩ 7 [] rfl rfl⟩

/-- C8 counterexample: for an issue 12 days away, `Issue::page_for_date`
returns `12 / 6 = 2`, not `days_away * ESTIMATED_PAGES_PER_DAY = 12`. -/
theorem c8_counterexample :
    Issue.page_for_date 100 88 = 2 ∧
    (2 : Nat) ≠ ((100 : Int) - 88).toNat * Issue.ESTIMATED_PAGES_PER_DAY := by
  exact ⟨by decide, by decide⟩

/-- C8 (amended): `Event::page_for_date` behaves as claimed (0 for today, the
fixed constant 4 for yesterday, `days_away * 4` otherwise), while
`Issue::page_for_date` is `days_away / 6` in every case — not
`days_away * ESTIMATED_PAGES_PER_DAY`. -/
theorem c8_theorem :
    (∀ today date : Int, today = date → Event.page_for_date today date = 0) ∧
    (∀ today date : Int, today - date = 1 → Event.page_for_date today date = 4) ∧
    (∀ today date : Int, 1 < today - date → today - date < 2 ^ 30 →
      Event.page_for_date today date = (today - date).toNat * Event.ESTIMATED_PAGES_PER_DAY) ∧
    (∀ today date : Int, 0 ≤ today - date → today - date < 2 ^ 32 →
      Issue.page_for_date today date = (today - date).toNat / 6) := by
  refine ⟨?_, ?_, ?_, ?_⟩
  · intro t d h
    subst h
    simp [Event.page_for_date]
  · intro t d h
    simp [Event.page_for_date, h]
  · intro t d h1 h2
    have h0 : (0 : Int) ≤ t - d := by omega
    have hz : (t - d) % ((u32Mod : Nat) : Int) = t - d := by
      simp only [u32Mod]
      omega
    simp only [Event.page_for_date, if_pos h1, asU32, hz, Event.ESTIMATED_PAGES_PER_DAY]
    have hlt : (t - d).toNat * 4 < u32Mod := by
      simp only [u32Mod]
      omega
    exact Nat.mod_eq_of_lt hlt
  · intro t d h0 h1
    have hz : (t - d) % ((u32Mod : Nat) : Int) = t - d := by
      simp only [u32Mod]
      omega
    simp only [Issue.page_for_date, asU32, hz]

/-- C8 witness: the four clauses at concrete dates (today = 10 resp. 100). -/
theorem c8_witness :
    Event.page_for_date 10 10 = 0 ∧ Event.page_for_date 10 9 = 4 ∧
    Event.page_for_date 10 3 = ((10 : Int) - 3).toNat * Event.ESTIMATED_PAGES_PER_DAY ∧
    Issue.page_for_date 100 88 = ((100 : Int) - 88).toNat / 6 := by
  exact ⟨c8_theorem.1 10 10 rfl, c8_theorem.2.1 10 9 (by decide),
    c8_theorem.2.2.1 10 3 (by decide) (by decide),
    c8_theorem.2.2.2 100 88 (by decide) (by decide)⟩

/-- C9 counterexample: a pull request with zero comments created before the
yardstick is pushed onto `untriaged` by the triage loop, and a pull request
with comments gets an activity fact recorded — the loop never consults the
pull-request flag. -/
theorem c9_counterexample :
    (perform_triage_step ⟨[]⟩ 0 0 prZeroComment []).untriaged = true ∧
    prZeroComment.is_pull_request = true ∧
    (perform_triage_step ⟨[]⟩ 0 0 prWithComments []).recorded =
      some (Activity.NoActivitySince 0) ∧
    prWithComments.is_pull_request = true := by
  exact ⟨rfl, rfl, rfl, rfl⟩

/-- C9 (amended): the per-issue triage step is invariant under the
pull-request flag — pull requests are processed exactly like plain issues
(only `Issues::for_date` filters them). -/
theorem c9_theorem :
    ∀ (cache : TriageCache) (yard now : Int) (i : Issue) (comments : List Comment)
      (p : Option Unit),
      perform_triage_step cache yard now (setPullRequest i p) comments =
        perform_triage_step cache yard now i comments := by
  intro cache yard now i comments p
  cases i
  rfl

/-- C10: `handle_range` errors exactly when the end date is on or after the
start date; otherwise it walks one date per day from `start` down to `e`
inclusive. -/
theorem c10_theorem :
    ∀ start e : Int,
      ((∃ msg, handle_range start e = Except.error msg) ↔ e ≥ start) ∧
      (e < start → handle_range start e =
        Except.ok ((List.range ((start - e).toNat + 1)).map (fun k : Nat => start - (k : Int)))) := by
  intro s e
  constructor
  · constructor
    · rintro ⟨msg, h⟩
      by_contra hge
      simp [handle_range, hge] at h
    · intro h
      exact ⟨"--start must be more recent than --end", by simp [handle_range, h]⟩
  · intro h
    have hn : ¬ (e ≥ s) := by omega
    simp only [handle_range, if_neg hn, closingsDates, closingsDatesAux_eq]

/-- C10 witness: a valid range 5 down to 2 yields the four dates, and the
inverted range 2 to 5 yields the error. -/
theorem c10_witness :
    handle_range 5 2 = Except.ok [5, 4, 3, 2] ∧
    (∃ msg, handle_range 2 5 = Except.error msg) := by
  constructor
  · have h := (c10_theorem 5 2).2 (by decide)
    rw [h]
    rfl
  · exact (c10_theorem 2 5).1.mpr (by decide)

end TriageTracker
